import Mathlib

/-!
# Verification of `plot_loss.py`

A shallow embedding of the loss-plotting script: per-run parsing with
fixed-window binning (`parse_filepath`), concatenation of run tables
(`collate_results` via `pd.concat`), the seaborn-facet plot step (`plot`),
and the command-line driver (`__main__`).

Tables (`pandas.DataFrame`) are modelled as a list of column names together
with a list of rows; a cell holds a rational number, a string, or NaN/missing
(`Value.null`).  Numeric loss logs are lists of rows of rationals.  File
reads are modelled by `Option`-valued fields of a run-directory record, and
exceptions by `Except`.  Rendering and filesystem side effects are modelled
as explicit effect traces.
-/

/-- A cell value of a table: a number, a string, or NaN/missing. -/
inductive Value where
  | num (q : ℚ)
  | str (s : String)
  | null
deriving DecidableEq, Repr

/-- A `pandas.DataFrame`: named columns and a list of rows. -/
structure DataFrame where
  cols : List String
  rows : List (List Value)
deriving DecidableEq, Repr

/-- Cell lookup by column name, as `pandas` row indexing: `Value.null`
(NaN) when the column is absent. -/
def getCell (cols : List String) (row : List Value) (c : String) : Value :=
  if c ∈ cols then row.getD (cols.indexOf c) Value.null else Value.null

/-- The values of column `c` down a table, row by row. -/
def colValues (d : DataFrame) (c : String) : List Value :=
  d.rows.map (fun row => getCell d.cols row c)

/-- Well-formedness: every row has exactly one cell per column. -/
def DataFrame.WF (d : DataFrame) : Prop :=
  ∀ row ∈ d.rows, row.length = d.cols.length

/-- Distinct values in order of first appearance (`pandas.Series.unique`). -/
def uniqueList : List Value → List Value
  | [] => []
  | x :: xs => x :: (uniqueList xs).filter (fun y => y ≠ x)

/-- Elementwise sum of two rows (`numpy` broadcasting on equal-length rows). -/
def addRow (a b : List ℚ) : List ℚ := List.zipWith (· + ·) a b

/-- Column-wise sum of a block of `C`-column rows: the `einsum('ijk->ik', ·)`
contraction over the middle axis, for one chunk. -/
def sumRows (C : ℕ) (rows : List (List ℚ)) : List ℚ :=
  rows.foldr addRow (List.replicate C 0)

/-- Column-wise arithmetic mean of a block of rows: the summed chunk divided
by `bin_size` (`.../bin_size` in `parse_filepath`). -/
def meanRows (C B : ℕ) (rows : List (List ℚ)) : List ℚ :=
  (sumRows C rows).map (fun q => q / (B : ℚ))

/-- The binning in `parse_filepath`:

    ignore_trailing_n = int(len(loss) - np.floor(len(loss)/bin_size)*bin_size)
    max_idx = len(loss) - ignore_trailing_n
    loss.values[:max_idx].reshape(-1, bin_size, C)  -- einsum -> /bin_size

`reshape(-1, B, C)` of the row-major `max_idx × C` block makes chunk `i` the
consecutive rows `i*B, …, i*B+B-1` of the truncated table; the inferred
first dimension is `max_idx / B`.  Each chunk is then replaced by its
column-wise mean. -/
def binLoss (rows : List (List ℚ)) (B C : ℕ) : List (List ℚ) :=
  let N := rows.length
  let ignore_trailing_n := N - N / B * B
  let max_idx := N - ignore_trailing_n
  let truncated := rows.take max_idx
  (List.range (truncated.length / B)).map
    (fun i => meanRows C B ((truncated.drop (i * B)).take B))

/-- Contents of `<run>/loss.csv`: a header row and numeric data rows. -/
structure LossCSV where
  header : List String
  rows : List (List ℚ)
deriving DecidableEq, Repr

/-- One run directory: `loss.csv` and `params.json`, each possibly missing
(`none` models `FileNotFoundError` on open).  `params.json` is a flat
key-value map, kept as an association list. -/
structure RunDir where
  loss : Option LossCSV
  params : Option (List (String × Value))
deriving DecidableEq, Repr

/-- The assignment `loss[k] = v` on a DataFrame with scalar `v`: overwrite column `k` if it
exists, else append it, with `v` broadcast to every row. -/
def setCol (d : DataFrame) (k : String) (v : Value) : DataFrame :=
  if k ∈ d.cols then
    ⟨d.cols, d.rows.map (fun row => row.set (d.cols.indexOf k) v)⟩
  else
    ⟨d.cols ++ [k], d.rows.map (fun row => row ++ [v])⟩

/-- The `for k,v in params.items(): loss[k] = v` loop. -/
def applyParams (d : DataFrame) (ps : List (String × Value)) : DataFrame :=
  ps.foldl (fun acc kv => setCol acc kv.1 kv.2) d

/-- The function `parse_filepath(fp, bin_size)`: read `loss.csv`, bin its rows, read
`params.json`, broadcast each metadata entry into a constant column.
A missing file (`FileNotFoundError`) is caught and yields `none`;
note the code opens `params.json` only after binning. -/
def parse_filepath (r : RunDir) (bin_size : ℕ) : Option DataFrame :=
  match r.loss with
  | none => none
  | some csv =>
    let binned := binLoss csv.rows bin_size csv.header.length
    let df : DataFrame := ⟨csv.header, binned.map (fun row => row.map Value.num)⟩
    match r.params with
    | none => none
    | some ps => some (applyParams df ps)

/-- The ordered union of column names produced by `pd.concat(..., axis=0)`
(outer join, `sort=False`): columns in order of first appearance. -/
def concatCols (dfs : List DataFrame) : List String :=
  dfs.foldl (fun acc d => acc ++ d.cols.filter (fun c => ¬ c ∈ acc)) []

/-- Rows of `pd.concat`: each frame's rows reindexed to the union columns,
missing columns filled with NaN, frames stacked in order. -/
def concatRows (cols : List String) : List DataFrame → List (List Value)
  | [] => []
  | d :: ds => d.rows.map (fun row => cols.map (getCell d.cols row)) ++ concatRows cols ds

/-- The concatenation `pd.concat(dfs, axis=0)` for a nonempty list of frames. -/
def pdConcat (dfs : List DataFrame) : DataFrame :=
  ⟨concatCols dfs, concatRows (concatCols dfs) dfs⟩

/-- The function `collate_results(results_dir, bin_size)`: parse every run found by the
glob, skip the ones that returned `None`, and concatenate.  `pd.concat` of
an empty list raises `ValueError("No objects to concatenate")`. -/
def collate_results (runs : List RunDir) (bin_size : ℕ) : Except String DataFrame :=
  let dfs := runs.filterMap (fun r => parse_filepath r bin_size)
  if dfs.isEmpty then .error "No objects to concatenate" else .ok (pdConcat dfs)

/-- The `seed` argument of `plot`: at this call surface it is either a Python
string or a Python list (`isinstance(seed, list)`). -/
inductive Seed where
  | str (s : String)
  | list (l : List String)
deriving DecidableEq, Repr

/-- A rendering side effect of `plot`: the `sns.relplot` call (with its facet
panels, panel height, column wrap, hue/style columns, and whether seeds are
statistically aggregated or drawn as one line per seed), `g.savefig`, and
`plt.show`. -/
inductive PlotEffect where
  | render (panels : List Value) (height colWrap : ℕ)
      (hue style : Option String) (aggregated : Bool)
  | save (path : String)
  | display
deriving DecidableEq, Repr

/-- The series `data['env'].unique()`: the distinct environments, first occurrence
first; `sns.relplot(..., col='env')` makes one panel per entry. -/
def envUniques (data : DataFrame) : List Value :=
  uniqueList (colValues data "env")

/-- The assignment `height = 3 if len(data['env'].unique()) > 2 else 5`. -/
def plotHeight (data : DataFrame) : ℕ :=
  if 2 < (envUniques data).length then 3 else 5

/-- The assignment `col_wrap = 2 if len(data['env'].unique()) > 1 else 1`. -/
def plotColWrap (data : DataFrame) : ℕ :=
  if 1 < (envUniques data).length then 2 else 1

/-- The effects after the `relplot` call: `g.savefig(savepath)` when a save
path was given, then `plt.show()` unless suppressed. -/
def renderTrail (savepath : Option String) (sh : Bool) : List PlotEffect :=
  (match savepath with | some p => [PlotEffect.save p] | none => []) ++
    (if sh then [PlotEffect.display] else [])

/-- The function `plot(data, hue, style, seed, bin_size, savepath, show)`: branch on the
seed mode exactly as the code does (`isinstance(seed, list) or
seed == 'average'`, then `seed == 'all'`, else
`raise ValueError(f"{seed} not a recognized choice")`), returning the trace
of rendering effects together with normal or exceptional termination.
The per-axis cosmetics (`set_xlabel(f"step in {bin_size}s")`,
`set(ylim=(0,3))`) mutate the already-rendered figure and are not traced. -/
def plot (data : DataFrame) (hue style : Option String) (seed : Seed)
    (bin_size : ℕ) (savepath : Option String) (sh : Bool) :
    List PlotEffect × Except String Unit :=
  let _ := bin_size
  match seed with
  | .list _ =>
      (PlotEffect.render (envUniques data) (plotHeight data) (plotColWrap data)
          hue style true :: renderTrail savepath sh, .ok ())
  | .str s =>
      if s = "average" then
        (PlotEffect.render (envUniques data) (plotHeight data) (plotColWrap data)
            hue style true :: renderTrail savepath sh, .ok ())
      else if s = "all" then
        (PlotEffect.render (envUniques data) (plotHeight data) (plotColWrap data)
            hue style false :: renderTrail savepath sh, .ok ())
      else ([], .error (s ++ " not a recognized choice"))

/-- The parsed command-line arguments.  `argparse` gives `--seed` type `str`,
so `seed` is a `String` here; `--create-csv`, `--no-plot`, `--no-show` are
store-true flags; `--query`, `--hue`, `--style`, `--save-path` default to
`None`. -/
structure Args where
  results_dir : String
  create_csv : Bool
  bin_size : ℕ
  query : Option String
  hue : Option String
  style : Option String
  seed : String
  no_plot : Bool
  no_show : Bool
  save_path : Option String
deriving DecidableEq, Repr

/-- The filesystem state the driver touches: the run directories found by
`glob(results_dir + '/*')`, in glob order, and the current contents of
`<results_dir>/combined.csv` (`none` when the file does not exist). -/
structure FS where
  runs : List RunDir
  combined : Option DataFrame
deriving DecidableEq, Repr

/-- A driver-level side effect: writing `combined.csv`, `os.makedirs`,
re-reading `combined.csv`, or one of `plot`'s rendering effects. -/
inductive MainEffect where
  | writeCsv (path : String) (d : DataFrame)
  | makedirs (dir : String)
  | readCsv (path : String)
  | plotEff (e : PlotEffect)
deriving DecidableEq, Repr

/-- The call `os.path.join(dir, file)` for an ordinary relative file name. -/
def joinPath (dir file : String) : String := dir ++ "/" ++ file

/-- The call `os.path.split(p)[0]`: the text before the last `/` (empty when the path
has no directory component). -/
def splitParent (p : String) : String :=
  String.intercalate "/" (p.splitOn "/").dropLast

/-- The call `df.query(q)`: keep the rows satisfying the query string.  The pandas
query-expression semantics is abstracted as a predicate `pred` on the query
string, the column names, and a row, supplied as a parameter of the model. -/
def runQuery (pred : String → List String → List Value → Bool)
    (q : String) (d : DataFrame) : DataFrame :=
  ⟨d.cols, d.rows.filter (fun row => pred q d.cols row)⟩

/-- The plotting half of `__main__` (`if not args.no_plot: ...`): create the
save-path parent directories when a save path is given, read
`combined.csv` back (raising if it is absent), apply the optional query
filter, and call `plot` with `seed` passed as the string it is. -/
def plotStage (pred : String → List String → List Value → Bool)
    (args : Args) (fs : FS) : List MainEffect × Except String Unit :=
  if args.no_plot then ([], .ok ())
  else
    let mk : List MainEffect :=
      match args.save_path with
      | some p => [MainEffect.makedirs (splitParent p)]
      | none => []
    match fs.combined with
    | none =>
        (mk, .error ("No such file or directory: " ++
          joinPath args.results_dir "combined.csv"))
    | some df =>
        let df2 := match args.query with
          | some q => runQuery pred q df
          | none => df
        let pres := plot df2 args.hue args.style (Seed.str args.seed)
          args.bin_size args.save_path (!args.no_show)
        (mk ++ MainEffect.readCsv (joinPath args.results_dir "combined.csv") ::
            pres.1.map MainEffect.plotEff, pres.2)

/-- The `__main__` block: when `--create-csv` is set, collate the runs and
overwrite `<results_dir>/combined.csv` with the result (an uncaught
`pd.concat` error aborts everything); then run the plotting stage.  Returns
the effect trace, the final filesystem state, and how execution ended. -/
def mainRun (pred : String → List String → List Value → Bool)
    (args : Args) (fs : FS) : List MainEffect × FS × Except String Unit :=
  if args.create_csv then
    match collate_results fs.runs args.bin_size with
    | .error e => ([], fs, .error e)
    | .ok df =>
        let fs' : FS := ⟨fs.runs, some df⟩
        let second := plotStage pred args fs'
        (MainEffect.writeCsv (joinPath args.results_dir "combined.csv") df ::
            second.1, fs', second.2)
  else
    let second := plotStage pred args fs
    (second.1, fs, second.2)

/-! ## Binning (`parse_filepath`) -/

/-- The binning step in closed form: for positive bin size the output is one
mean row per full window, window `i` being rows `i*B, …, i*B + B - 1` of the
original log. -/
theorem binLoss_eq (rows : List (List ℚ)) (B C : ℕ) (hB : 0 < B) :
    binLoss rows B C =
      (List.range (rows.length / B)).map
        (fun i => meanRows C B ((rows.drop (i * B)).take B)) := by
  have hle : rows.length / B * B ≤ rows.length := Nat.div_mul_le_self _ _
  have hmax : rows.length - (rows.length - rows.length / B * B) = rows.length / B * B :=
    Nat.sub_sub_self hle
  have hlen : (rows.take (rows.length / B * B)).length = rows.length / B * B := by
    rw [List.length_take, Nat.min_eq_left hle]
  simp only [binLoss]
  rw [hmax, hlen, Nat.mul_div_cancel _ hB]
  refine List.map_congr_left ?_
  intro i hi
  rw [List.mem_range] at hi
  have h2 : i * B + B ≤ rows.length / B * B := by
    have h1 : (i + 1) * B ≤ rows.length / B * B :=
      Nat.mul_le_mul (Nat.succ_le_of_lt hi) (le_refl B)
    calc i * B + B = (i + 1) * B := by ring
    _ ≤ _ := h1
  have hwin : B ≤ rows.length / B * B - i * B :=
    le_tsub_of_add_le_right (by rw [Nat.add_comm]; exact h2)
  rw [List.drop_take, List.take_take, Nat.min_eq_left hwin]

/-- The binned table has `⌊N/B⌋` rows. -/
theorem binLoss_length (rows : List (List ℚ)) (B C : ℕ) (hB : 0 < B) :
    (binLoss rows B C).length = rows.length / B := by
  rw [binLoss_eq rows B C hB, List.length_map, List.length_range]

/-- Setting one column does not change the number of rows. -/
theorem setCol_rows_length (d : DataFrame) (k : String) (v : Value) :
    (setCol d k v).rows.length = d.rows.length := by
  unfold setCol
  split <;> simp

/-- The metadata loop does not change the number of rows. -/
theorem applyParams_rows_length (d : DataFrame) (ps : List (String × Value)) :
    (applyParams d ps).rows.length = d.rows.length := by
  induction ps generalizing d with
  | nil => rfl
  | cons kv t ih =>
      show (applyParams (setCol d kv.1 kv.2) t).rows.length = d.rows.length
      rw [ih, setCol_rows_length]

/-- Inside the kept prefix, window `i` of the truncated log is window `i`
of the original log. -/
theorem window_take (rows : List (List ℚ)) (B i : ℕ)
    (hi : i < rows.length / B) :
    ((rows.take (rows.length / B * B)).drop (i * B)).take B =
      (rows.drop (i * B)).take B := by
  have h2 : i * B + B ≤ rows.length / B * B := by
    have h1 : (i + 1) * B ≤ rows.length / B * B :=
      Nat.mul_le_mul (Nat.succ_le_of_lt hi) (le_refl B)
    calc i * B + B = (i + 1) * B := by ring
    _ ≤ _ := h1
  have hwin : B ≤ rows.length / B * B - i * B :=
    le_tsub_of_add_le_right (by rw [Nat.add_comm]; exact h2)
  rw [List.drop_take, List.take_take, Nat.min_eq_left hwin]

/-- The last `N % B` rows contribute nothing: binning the log truncated to
its first `N - N % B` rows gives the same table as binning the whole log. -/
theorem binLoss_take (rows : List (List ℚ)) (B C : ℕ) (hB : 0 < B) :
    binLoss (rows.take (rows.length - rows.length % B)) B C = binLoss rows B C := by
  have hNB : rows.length - rows.length % B = B * (rows.length / B) := by
    have := Nat.div_add_mod rows.length B
    omega
  have hle : rows.length / B * B ≤ rows.length := Nat.div_mul_le_self _ _
  have hlen : (rows.take (rows.length - rows.length % B)).length = rows.length / B * B := by
    rw [hNB, Nat.mul_comm, List.length_take, Nat.min_eq_left hle]
  rw [binLoss_eq _ _ _ hB, binLoss_eq _ _ _ hB, hlen, Nat.mul_div_cancel _ hB]
  refine List.map_congr_left ?_
  intro i hi
  rw [List.mem_range] at hi
  have : rows.take (rows.length - rows.length % B) = rows.take (rows.length / B * B) := by
    rw [hNB, Nat.mul_comm]
  rw [this, window_take rows B i hi]

/-- Sample run A of the spec's example: a 250-row loss log. -/
def csvA : LossCSV :=
  ⟨["step", "loss"], (List.range 250).map (fun (i : ℕ) => [(i : ℚ), (i : ℚ) / 2])⟩

/-- Sample metadata for run A. -/
def paramsA : List (String × Value) :=
  [("env", Value.str "pong"), ("seed", Value.num 0), ("lr", Value.num (1 / 10000))]

/-- Sample run directory A with both files present. -/
def runA : RunDir := ⟨some csvA, some paramsA⟩

/-- C1: for every run whose loss log has `N` rows and every positive bin
size `B`, `parse_filepath` produces a binned table with `⌊N/B⌋` rows, row `i`
of the binning being the column-wise arithmetic mean of original rows
`i*B, …, i*B + B - 1`, and the last `N % B` rows contributing nothing. -/
theorem parse_filepath_bin_means (r : RunDir) (csv : LossCSV)
    (ps : List (String × Value)) (B : ℕ) (hB : 0 < B)
    (hloss : r.loss = some csv) (hps : r.params = some ps) :
    ∃ df, parse_filepath r B = some df ∧
      df.rows.length = csv.rows.length / B ∧
      (∀ i, i < csv.rows.length / B →
        (binLoss csv.rows B csv.header.length).getD i [] =
          meanRows csv.header.length B ((csv.rows.drop (i * B)).take B)) ∧
      binLoss (csv.rows.take (csv.rows.length - csv.rows.length % B)) B
          csv.header.length =
        binLoss csv.rows B csv.header.length := by
  refine ⟨applyParams
      ⟨csv.header,
        (binLoss csv.rows B csv.header.length).map (fun row => row.map Value.num)⟩ ps,
    ?_, ?_, ?_, binLoss_take csv.rows B csv.header.length hB⟩
  · rw [parse_filepath, hloss, hps]
  · show (applyParams _ ps).rows.length = _
    rw [applyParams_rows_length]
    simp [binLoss_length _ _ _ hB]
  · intro i hi
    rw [binLoss_eq _ _ _ hB,
      List.getD_eq_getElem _ _ (by simpa using hi)]
    simp

set_option maxRecDepth 4000 in
/-- C1 witness: run A's 250-row log at bin size 100 parses to a table with
`250 / 100 = 2` rows, with the stated mean-window rows. -/
theorem parse_filepath_bin_means_witness :
    (0 < 100 ∧ runA.loss = some csvA ∧ runA.params = some paramsA ∧
      csvA.rows.length / 100 = 2) ∧
    (∃ df, parse_filepath runA 100 = some df ∧
      df.rows.length = csvA.rows.length / 100 ∧
      (∀ i, i < csvA.rows.length / 100 →
        (binLoss csvA.rows 100 csvA.header.length).getD i [] =
          meanRows csvA.header.length 100 ((csvA.rows.drop (i * 100)).take 100)) ∧
      binLoss (csvA.rows.take (csvA.rows.length - csvA.rows.length % 100)) 100
          csvA.header.length =
        binLoss csvA.rows 100 csvA.header.length) :=
  ⟨⟨by decide, rfl, rfl, by
      show ((List.range 250).map (fun (i : ℕ) => [(i : ℚ), (i : ℚ) / 2])).length / 100 = 2
      rw [List.length_map, List.length_range]⟩,
    parse_filepath_bin_means runA csvA paramsA 100 (by decide) rfl rfl⟩

/-! ## Missing files and collation -/

/-- A run directory whose `loss.csv` is missing. -/
def runMissing : RunDir := ⟨none, some [("env", Value.str "pong")]⟩

/-- A small two-row run. -/
def csvB : LossCSV := ⟨["step", "loss"], [[0, 1], [1, 3]]⟩

/-- Metadata of run B. -/
def paramsB : List (String × Value) :=
  [("env", Value.str "breakout"), ("algo", Value.str "dqn")]

/-- Sample run directory B. -/
def runB : RunDir := ⟨some csvB, some paramsB⟩

/-- A one-row run with metadata keys differing from run B's. -/
def runC : RunDir :=
  ⟨some ⟨["step", "loss"], [[2, 5]]⟩,
    some [("env", Value.str "pong"), ("seed", Value.num 1)]⟩

/-- C2: a run missing `loss.csv` or `params.json` parses to `None`
(the `FileNotFoundError` is caught and reported), and `collate_results`
over any batch containing it equals the collation of the remaining runs:
the run contributes zero rows and does not abort the batch. -/
theorem parse_filepath_missing_skipped (r : RunDir) (B : ℕ)
    (h : r.loss = none ∨ r.params = none) (pre post : List RunDir) :
    parse_filepath r B = none ∧
    collate_results (pre ++ r :: post) B = collate_results (pre ++ post) B := by
  have hnone : parse_filepath r B = none := by
    rcases h with h | h
    · simp [parse_filepath, h]
    · cases hl : r.loss with
      | none => simp [parse_filepath, hl]
      | some csv => simp [parse_filepath, hl, h]
  refine ⟨hnone, ?_⟩
  simp only [collate_results, List.filterMap_append, List.filterMap_cons, hnone]

/-- C2 witness: a batch of run A and a loss-less run collates exactly as the
batch of run A alone, the bad run parsing to `None`. -/
theorem parse_filepath_missing_skipped_witness :
    (runMissing.loss = none ∨ runMissing.params = none) ∧
    (parse_filepath runMissing 100 = none ∧
      collate_results ([runA] ++ runMissing :: []) 100 =
        collate_results ([runA] ++ []) 100) :=
  ⟨Or.inl rfl,
    parse_filepath_missing_skipped runMissing 100 (Or.inl rfl) [runA] []⟩

/-- Stacked concat rows: one block of rows per input frame. -/
theorem concatRows_length (cols : List String) (dfs : List DataFrame) :
    (concatRows cols dfs).length = (dfs.map (fun d => d.rows.length)).sum := by
  induction dfs with
  | nil => rfl
  | cons d ds ih => simp [concatRows, ih]

/-- Membership in the folded ordered union of column lists. -/
theorem mem_concatCols_aux (dfs : List DataFrame) (acc : List String) (c : String) :
    (c ∈ dfs.foldl (fun acc d => acc ++ d.cols.filter (fun x => ¬ x ∈ acc)) acc) ↔
      (c ∈ acc ∨ ∃ d ∈ dfs, c ∈ d.cols) := by
  induction dfs generalizing acc with
  | nil => simp
  | cons d ds ih =>
      rw [List.foldl_cons, ih]
      simp only [List.mem_append, List.mem_filter, List.mem_cons, decide_not,
        Bool.not_eq_true', decide_eq_false_iff_not]
      constructor
      · rintro ((h | ⟨h, -⟩) | ⟨d', hd', hc⟩)
        · exact Or.inl h
        · exact Or.inr ⟨d, Or.inl rfl, h⟩
        · exact Or.inr ⟨d', Or.inr hd', hc⟩
      · rintro (h | ⟨d', hd' | hd', hc⟩)
        · exact Or.inl (Or.inl h)
        · by_cases hacc : c ∈ acc
          · exact Or.inl (Or.inl hacc)
          · exact Or.inl (Or.inr ⟨hd' ▸ hc, hacc⟩)
        · exact Or.inr ⟨d', hd', hc⟩

/-- A column appears in `pd.concat`'s output iff some input frame has it. -/
theorem mem_concatCols (dfs : List DataFrame) (c : String) :
    c ∈ concatCols dfs ↔ ∃ d ∈ dfs, c ∈ d.cols := by
  rw [show concatCols dfs =
      dfs.foldl (fun acc d => acc ++ d.cols.filter (fun x => ¬ x ∈ acc)) [] from rfl,
    mem_concatCols_aux dfs [] c]
  simp

/-- C4: over any batch whose parsed run tables are nonempty,
`collate_results` returns one table whose row count is the sum of the
parsed tables' row counts and whose column set is the union of theirs. -/
theorem collate_results_shape (runs : List RunDir) (B : ℕ)
    (h : runs.filterMap (fun r => parse_filepath r B) ≠ []) :
    ∃ d, collate_results runs B = .ok d ∧
      d.rows.length =
        ((runs.filterMap (fun r => parse_filepath r B)).map
          (fun df => df.rows.length)).sum ∧
      ∀ c, c ∈ d.cols ↔
        ∃ df ∈ runs.filterMap (fun r => parse_filepath r B), c ∈ df.cols := by
  refine ⟨pdConcat (runs.filterMap (fun r => parse_filepath r B)), ?_, ?_, ?_⟩
  · simp only [collate_results]
    rw [if_neg (by simpa [List.isEmpty_iff] using h)]
  · exact concatRows_length _ _
  · exact fun c => mem_concatCols _ c

/-- C4 witness: runs B and C (with differing metadata columns) collate into
one table with `2 + 1` rows and the union of the two column sets. -/
theorem collate_results_shape_witness :
    ([runB, runC].filterMap (fun r => parse_filepath r 1) ≠ []) ∧
    (∃ d, collate_results [runB, runC] 1 = .ok d ∧
      d.rows.length =
        (([runB, runC].filterMap (fun r => parse_filepath r 1)).map
          (fun df => df.rows.length)).sum ∧
      ∀ c, c ∈ d.cols ↔
        ∃ df ∈ [runB, runC].filterMap (fun r => parse_filepath r 1), c ∈ df.cols) :=
  ⟨by decide, collate_results_shape [runB, runC] 1 (by decide)⟩

/-- C9: when no run parses successfully, `pd.concat` gets an empty list and
raises `ValueError`; with `--create-csv` set the driver aborts before
writing anything, rather than producing an empty `combined.csv`. -/
theorem collate_results_empty_aborts (runs : List RunDir) (B : ℕ)
    (h : runs.filterMap (fun r => parse_filepath r B) = []) :
    collate_results runs B = .error "No objects to concatenate" ∧
    ∀ (pred : String → List String → List Value → Bool) (args : Args) (fs : FS),
      args.create_csv = true → args.bin_size = B → fs.runs = runs →
      (mainRun pred args fs).1 = [] ∧
      (mainRun pred args fs).2.1 = fs ∧
      (mainRun pred args fs).2.2 = .error "No objects to concatenate" := by
  have hc : collate_results runs B = .error "No objects to concatenate" := by
    simp [collate_results, h]
  refine ⟨hc, ?_⟩
  intro pred args fs h1 h2 h3
  refine ⟨?_, ?_, ?_⟩ <;> simp [mainRun, h1, h2, h3, hc]

/-- Arguments of a `--create-csv --no-plot` invocation. -/
def argsCsv : Args :=
  ⟨"results", true, 100, none, none, none, "average", true, false, none⟩

/-- A results directory holding only the loss-less run. -/
def fsMissing : FS := ⟨[runMissing], none⟩

/-- C9 witness: a directory whose only run lacks `loss.csv` makes
`collate_results` raise and the `--create-csv` driver abort with no writes. -/
theorem collate_results_empty_aborts_witness :
    ([runMissing].filterMap (fun r => parse_filepath r 100) = []) ∧
    collate_results [runMissing] 100 = .error "No objects to concatenate" ∧
    (mainRun (fun _ _ _ => true) argsCsv fsMissing).1 = [] ∧
    (mainRun (fun _ _ _ => true) argsCsv fsMissing).2.1 = fsMissing ∧
    (mainRun (fun _ _ _ => true) argsCsv fsMissing).2.2 =
      .error "No objects to concatenate" := by
  have h := collate_results_empty_aborts [runMissing] 100 rfl
  have h2 := h.2 (fun _ _ _ => true) argsCsv fsMissing rfl rfl rfl
  exact ⟨rfl, h.1, h2.1, h2.2.1, h2.2.2⟩

/-! ## Metadata columns (`loss[k] = v`) -/

/-- Unfolding of table well-formedness. -/
theorem wf_def (d : DataFrame) :
    d.WF ↔ ∀ row ∈ d.rows, row.length = d.cols.length := Iff.rfl

/-- Setting a column preserves well-formedness. -/
theorem setCol_wf (d : DataFrame) (k : String) (v : Value) (h : d.WF) :
    (setCol d k v).WF := by
  rw [wf_def] at h ⊢
  unfold setCol
  split
  · intro row hrow
    simp only [List.mem_map] at hrow
    obtain ⟨r0, hr0, rfl⟩ := hrow
    simp [h r0 hr0]
  · intro row hrow
    simp only [List.mem_map] at hrow
    obtain ⟨r0, hr0, rfl⟩ := hrow
    simp [h r0 hr0]

/-- After `loss[k] = v`, column `k` exists. -/
theorem mem_setCol_self (d : DataFrame) (k : String) (v : Value) :
    k ∈ (setCol d k v).cols := by
  unfold setCol
  split
  · assumption
  · simp

/-- Setting a column keeps every existing column. -/
theorem mem_setCol_of_mem (d : DataFrame) (k c : String) (v : Value)
    (h : c ∈ d.cols) : c ∈ (setCol d k v).cols := by
  unfold setCol
  split
  · exact h
  · simp [h]

/-- After `loss[k] = v`, column `k` holds `v` in every row. -/
theorem colValues_setCol_self (d : DataFrame) (k : String) (v : Value)
    (h : d.WF) :
    colValues (setCol d k v) k = List.replicate d.rows.length v := by
  rw [wf_def] at h
  rw [List.eq_replicate_iff]
  unfold setCol
  split
  case isTrue hk =>
    constructor
    · simp [colValues]
    · intro b hb
      simp only [colValues, List.map_map, List.mem_map, Function.comp] at hb
      obtain ⟨r0, hr0, rfl⟩ := hb
      have hidx : d.cols.indexOf k < r0.length := by
        rw [h r0 hr0]
        exact List.indexOf_lt_length.mpr hk
      rw [getCell, if_pos hk,
        List.getD_eq_getElem _ _ (by simpa using hidx)]
      exact List.getElem_set_self _
  case isFalse hk =>
    constructor
    · simp [colValues]
    · intro b hb
      simp only [colValues, List.map_map, List.mem_map, Function.comp] at hb
      obtain ⟨r0, hr0, rfl⟩ := hb
      have hmem : k ∈ d.cols ++ [k] := by simp
      have hidx : (d.cols ++ [k]).indexOf k = r0.length := by
        rw [List.indexOf_append_of_not_mem hk, List.indexOf_cons_self, h r0 hr0,
          Nat.add_zero]
      rw [getCell, if_pos hmem, hidx,
        List.getD_eq_getElem _ _ (by simp)]
      exact List.getElem_concat_length r0 v r0.length rfl _

/-- The assignment `loss[k] = v` leaves every other column's values unchanged. -/
theorem colValues_setCol_ne (d : DataFrame) (k c : String) (v : Value)
    (hne : c ≠ k) (h : d.WF) :
    colValues (setCol d k v) c = colValues d c := by
  rw [wf_def] at h
  unfold setCol
  split
  case isTrue hk =>
    simp only [colValues, List.map_map]
    refine List.map_congr_left ?_
    intro r0 hr0
    simp only [Function.comp]
    by_cases hc : c ∈ d.cols
    · have hidxc : d.cols.indexOf c < r0.length := by
        rw [h r0 hr0]; exact List.indexOf_lt_length.mpr hc
      have hnei : d.cols.indexOf k ≠ d.cols.indexOf c := by
        intro heq
        exact hne (((List.indexOf_inj hk hc).mp heq).symm)
      rw [getCell, getCell, if_pos hc, if_pos hc,
        List.getD_eq_getElem _ _ (by simpa using hidxc),
        List.getD_eq_getElem _ _ hidxc]
      exact List.getElem_set_ne hnei _
    · rw [getCell, getCell, if_neg hc, if_neg hc]
  case isFalse hk =>
    simp only [colValues, List.map_map]
    refine List.map_congr_left ?_
    intro r0 hr0
    simp only [Function.comp]
    by_cases hc : c ∈ d.cols
    · have hcc : c ∈ d.cols ++ [k] := by simp [hc]
      have hidxc : (d.cols ++ [k]).indexOf c = d.cols.indexOf c :=
        List.indexOf_append_of_mem hc
      have hlt : d.cols.indexOf c < r0.length := by
        rw [h r0 hr0]; exact List.indexOf_lt_length.mpr hc
      rw [getCell, getCell, if_pos hcc, if_pos hc, hidxc,
        List.getD_eq_getElem _ _ (by simp; omega),
        List.getD_eq_getElem _ _ hlt]
      exact List.getElem_append_left hlt
    · have hcc : c ∉ d.cols ++ [k] := by
        simp [hc, hne]
      rw [getCell, getCell, if_neg hcc, if_neg hc]

/-- The metadata loop preserves well-formedness. -/
theorem applyParams_wf (ps : List (String × Value)) (d : DataFrame)
    (h : d.WF) : (applyParams d ps).WF := by
  induction ps generalizing d with
  | nil => exact h
  | cons kv t ih =>
      show (applyParams (setCol d kv.1 kv.2) t).WF
      exact ih _ (setCol_wf d kv.1 kv.2 h)

/-- The metadata loop keeps every existing column. -/
theorem mem_cols_applyParams (ps : List (String × Value)) (d : DataFrame)
    (c : String) (h : c ∈ d.cols) : c ∈ (applyParams d ps).cols := by
  induction ps generalizing d with
  | nil => exact h
  | cons kv t ih =>
      show c ∈ (applyParams (setCol d kv.1 kv.2) t).cols
      exact ih _ (mem_setCol_of_mem d kv.1 c kv.2 h)

/-- Metadata entries whose keys differ from `c` leave column `c` alone. -/
theorem colValues_applyParams_not_key (ps : List (String × Value))
    (d : DataFrame) (c : String) (hc : c ∉ ps.map Prod.fst) (h : d.WF) :
    colValues (applyParams d ps) c = colValues d c := by
  induction ps generalizing d with
  | nil => rfl
  | cons kv t ih =>
      simp only [List.map_cons, List.mem_cons] at hc
      push_neg at hc
      show colValues (applyParams (setCol d kv.1 kv.2) t) c = colValues d c
      rw [ih _ hc.2 (setCol_wf d kv.1 kv.2 h),
        colValues_setCol_ne d kv.1 c kv.2 hc.1 h]

/-- The column-wise sum of a rectangular block keeps the column count. -/
theorem sumRows_length (C : ℕ) (rows : List (List ℚ))
    (h : ∀ row ∈ rows, row.length = C) : (sumRows C rows).length = C := by
  induction rows with
  | nil => simp [sumRows]
  | cons r t ih =>
      show (addRow r (sumRows C t)).length = C
      rw [addRow, List.length_zipWith,
        ih (fun row hrow => h row (List.mem_cons_of_mem _ hrow)),
        h r (List.mem_cons_self _ _)]
      exact Nat.min_self C

/-- Each mean row of a rectangular block has one entry per column. -/
theorem meanRows_length (C B : ℕ) (rows : List (List ℚ))
    (h : ∀ row ∈ rows, row.length = C) : (meanRows C B rows).length = C := by
  rw [meanRows, List.length_map]
  exact sumRows_length C rows h

/-- Binning a rectangular log yields rows of the same column count. -/
theorem binLoss_row_length (rows : List (List ℚ)) (B C : ℕ)
    (hrect : ∀ row ∈ rows, row.length = C) :
    ∀ row ∈ binLoss rows B C, row.length = C := by
  intro row hrow
  simp only [binLoss, List.mem_map] at hrow
  obtain ⟨i, _, rfl⟩ := hrow
  refine meanRows_length C B _ ?_
  intro w hw
  exact hrect w (List.mem_of_mem_take (List.mem_of_mem_drop
    (List.mem_of_mem_take hw)))

/-- The table built from the binned log is well-formed. -/
theorem binnedFrame_wf (csv : LossCSV) (B : ℕ)
    (hrect : ∀ row ∈ csv.rows, row.length = csv.header.length) :
    (DataFrame.mk csv.header
      ((binLoss csv.rows B csv.header.length).map
        (fun row => row.map Value.num))).WF := by
  rw [wf_def]
  intro row hrow
  simp only [List.mem_map] at hrow
  obtain ⟨r0, hr0, rfl⟩ := hrow
  rw [List.length_map]
  exact binLoss_row_length csv.rows B csv.header.length hrect r0 hr0

/-- C5: every `params.json` key of a successfully parsed run is a column of
that run's table, holding the key's metadata value in every row. -/
theorem parse_filepath_params_constant (r : RunDir) (csv : LossCSV)
    (ps : List (String × Value)) (B : ℕ) (df : DataFrame)
    (hloss : r.loss = some csv) (hps : r.params = some ps)
    (hrect : ∀ row ∈ csv.rows, row.length = csv.header.length)
    (hnodup : (ps.map Prod.fst).Nodup)
    (hparse : parse_filepath r B = some df) :
    ∀ kv ∈ ps, kv.1 ∈ df.cols ∧
      colValues df kv.1 = List.replicate df.rows.length kv.2 := by
  have hdf : df =
      applyParams
        ⟨csv.header,
          (binLoss csv.rows B csv.header.length).map
            (fun row => row.map Value.num)⟩ ps := by
    rw [parse_filepath, hloss, hps] at hparse
    exact (Option.some_injective _ hparse).symm
  intro kv hkv
  obtain ⟨s, t, rfl⟩ := List.append_of_mem hkv
  have hkeys : kv.1 ∉ t.map Prod.fst := by
    have h1 : ((s ++ kv :: t).map Prod.fst).Nodup := hnodup
    rw [List.map_append, List.map_cons] at h1
    exact (List.nodup_cons.mp (List.Nodup.of_append_right h1)).1
  set base : DataFrame :=
    ⟨csv.header,
      (binLoss csv.rows B csv.header.length).map
        (fun row => row.map Value.num)⟩ with hbase
  have hwf0 : base.WF := binnedFrame_wf csv B hrect
  have hsplit : applyParams base (s ++ kv :: t) =
      applyParams (setCol (applyParams base s) kv.1 kv.2) t := by
    rw [applyParams, List.foldl_append, List.foldl_cons]
    rfl
  have hwf1 : (applyParams base s).WF := applyParams_wf s base hwf0
  have hwf2 : (setCol (applyParams base s) kv.1 kv.2).WF :=
    setCol_wf _ kv.1 kv.2 hwf1
  constructor
  · rw [hdf, hsplit]
    exact mem_cols_applyParams t _ kv.1 (mem_setCol_self _ kv.1 kv.2)
  · have hlen : (applyParams (setCol (applyParams base s) kv.1 kv.2) t).rows.length
        = (applyParams base s).rows.length := by
      rw [applyParams_rows_length, setCol_rows_length]
    rw [hdf, hsplit,
      colValues_applyParams_not_key t _ kv.1 hkeys hwf2,
      colValues_setCol_self _ kv.1 kv.2 hwf1, hlen]

/-- The table run B parses to at bin size 1. -/
def dfB : DataFrame :=
  ⟨["step", "loss", "env", "algo"],
    [[Value.num 0, Value.num 1, Value.str "breakout", Value.str "dqn"],
     [Value.num 1, Value.num 3, Value.str "breakout", Value.str "dqn"]]⟩

/-- C5 witness: run B's metadata keys `env` and `algo` are constant columns
of its parsed table. -/
theorem parse_filepath_params_constant_witness :
    ((∀ row ∈ csvB.rows, row.length = csvB.header.length) ∧
      (paramsB.map Prod.fst).Nodup ∧
      runB.loss = some csvB ∧ runB.params = some paramsB ∧
      parse_filepath runB 1 = some dfB) ∧
    (∀ kv ∈ paramsB, kv.1 ∈ dfB.cols ∧
      colValues dfB kv.1 = List.replicate dfB.rows.length kv.2) :=
  ⟨⟨by decide, by decide, rfl, rfl, by
      simp +decide [parse_filepath, runB, csvB, paramsB, applyParams, setCol,
        binLoss, meanRows, sumRows, addRow, dfB, List.range_succ]⟩,
    parse_filepath_params_constant runB csvB paramsB 1 dfB rfl rfl
      (by decide) (by decide)
      (by simp +decide [parse_filepath, runB, csvB, paramsB, applyParams, setCol,
        binLoss, meanRows, sumRows, addRow, dfB, List.range_succ])⟩

/-! ## The plot step -/

/-- C3: a seed argument that is neither the string `average`, nor the string
`all`, nor a list makes `plot` raise the unrecognized-choice `ValueError`
with an empty rendering trace (nothing rendered, saved, or shown), while
`average`, `all`, and any list raise no error. -/
theorem plot_seed_mode (data : DataFrame) (hue style : Option String)
    (seed : Seed) (B : ℕ) (sp : Option String) (sh : Bool) :
    ((∃ s, seed = .str s ∧ s ≠ "average" ∧ s ≠ "all") →
      plot data hue style seed B sp sh = ([], .error
        ((match seed with | .str s => s | .list _ => "") ++
          " not a recognized choice"))) ∧
    ((seed = .str "average" ∨ seed = .str "all" ∨ ∃ l, seed = .list l) →
      ∃ effs, plot data hue style seed B sp sh = (effs, .ok ())) := by
  constructor
  · rintro ⟨s, rfl, h1, h2⟩
    simp [plot, h1, h2]
  · rintro (rfl | rfl | ⟨l, rfl⟩)
    · exact ⟨PlotEffect.render (envUniques data) (plotHeight data)
        (plotColWrap data) hue style true :: renderTrail sp sh, by simp [plot]⟩
    · exact ⟨PlotEffect.render (envUniques data) (plotHeight data)
        (plotColWrap data) hue style false :: renderTrail sp sh, by simp [plot]⟩
    · exact ⟨PlotEffect.render (envUniques data) (plotHeight data)
        (plotColWrap data) hue style true :: renderTrail sp sh, rfl⟩

/-- C3 witness: the seed string `bogus` errors with an empty trace; the seed
string `average` succeeds. -/
theorem plot_seed_mode_witness :
    plot dfB none none (Seed.str "bogus") 100 none true =
      ([], .error "bogus not a recognized choice") ∧
    ∃ effs, plot dfB none none (Seed.str "average") 100 none true =
      (effs, .ok ()) :=
  ⟨(plot_seed_mode dfB none none (Seed.str "bogus") 100 none true).1
      ⟨"bogus", rfl, by decide, by decide⟩,
    (plot_seed_mode dfB none none (Seed.str "average") 100 none true).2
      (Or.inl rfl)⟩

/-- The distinct-values list has no duplicates. -/
theorem uniqueList_nodup (l : List Value) : (uniqueList l).Nodup := by
  induction l with
  | nil => simp [uniqueList]
  | cons x xs ih =>
      rw [uniqueList]
      refine List.nodup_cons.mpr ⟨?_, List.Nodup.filter _ ih⟩
      intro hmem
      rw [List.mem_filter] at hmem
      simp at hmem

/-- The distinct-values list has exactly the values of the input. -/
theorem mem_uniqueList (l : List Value) (v : Value) :
    v ∈ uniqueList l ↔ v ∈ l := by
  induction l with
  | nil => simp [uniqueList]
  | cons x xs ih =>
      rw [uniqueList]
      constructor
      · intro h
        rcases List.mem_cons.mp h with rfl | h
        · exact List.mem_cons_self _ _
        · rw [List.mem_filter] at h
          exact List.mem_cons_of_mem _ (ih.mp h.1)
      · intro h
        rcases List.mem_cons.mp h with rfl | h
        · exact List.mem_cons_self _ _
        · by_cases hvx : v = x
          · subst hvx
            exact List.mem_cons_self _ _
          · exact List.mem_cons_of_mem _
              (List.mem_filter.mpr ⟨ih.mpr h, by simpa using hvx⟩)

/-- A table whose `env` column has exactly two distinct values. -/
def dfTwoEnvs : DataFrame :=
  ⟨["step", "loss", "env"],
    [[Value.num 0, Value.num 1, Value.str "pong"],
     [Value.num 1, Value.num 2, Value.str "breakout"]]⟩

/-- C6 counterexample: for a table with exactly two distinct environments
the claim predicts a single-column layout, but the code sets
`col_wrap = 2`. -/
theorem plot_two_envs_not_single_column :
    (envUniques dfTwoEnvs).length = 2 ∧ plotColWrap dfTwoEnvs ≠ 1 := by
  decide

/-- C6 (amended): `plot` renders one panel per distinct `env` value; the
layout is a single column only when there is exactly one distinct
environment and a 2-wide wrapped grid for two or more, and the panel height
shrinks from 5 to 3 when there are more than two environments. -/
theorem plot_facet_layout (data : DataFrame) (hue style : Option String)
    (seed : Seed) (B : ℕ) (sp : Option String) (sh : Bool)
    (hseed : seed = .str "average" ∨ seed = .str "all" ∨ ∃ l, seed = .list l) :
    (∃ agg rest,
      (plot data hue style seed B sp sh).1 =
        PlotEffect.render (envUniques data) (plotHeight data)
          (plotColWrap data) hue style agg :: rest) ∧
    (envUniques data).Nodup ∧
    (∀ v, v ∈ envUniques data ↔ v ∈ colValues data "env") ∧
    ((envUniques data).length ≤ 1 → plotColWrap data = 1) ∧
    (1 < (envUniques data).length → plotColWrap data = 2) ∧
    ((envUniques data).length ≤ 2 → plotHeight data = 5) ∧
    (2 < (envUniques data).length → plotHeight data = 3) := by
  refine ⟨?_, uniqueList_nodup _, fun v => mem_uniqueList _ v, ?_, ?_, ?_, ?_⟩
  · rcases hseed with rfl | rfl | ⟨l, rfl⟩
    · exact ⟨true, renderTrail sp sh, rfl⟩
    · refine ⟨false, renderTrail sp sh, ?_⟩
      simp [plot]
    · exact ⟨true, renderTrail sp sh, rfl⟩
  · intro h
    rw [plotColWrap, if_neg (by omega)]
  · intro h
    rw [plotColWrap, if_pos h]
  · intro h
    rw [plotHeight, if_neg (by omega)]
  · intro h
    rw [plotHeight, if_pos h]

/-- C6 (amended) witness: the layout facts instantiated at the two-env
table in `average` mode. -/
theorem plot_facet_layout_witness :
    (∃ agg rest,
      (plot dfTwoEnvs none none (Seed.str "average") 100 none false).1 =
        PlotEffect.render (envUniques dfTwoEnvs) (plotHeight dfTwoEnvs)
          (plotColWrap dfTwoEnvs) none none agg :: rest) ∧
    (envUniques dfTwoEnvs).Nodup ∧
    (∀ v, v ∈ envUniques dfTwoEnvs ↔ v ∈ colValues dfTwoEnvs "env") ∧
    ((envUniques dfTwoEnvs).length ≤ 1 → plotColWrap dfTwoEnvs = 1) ∧
    (1 < (envUniques dfTwoEnvs).length → plotColWrap dfTwoEnvs = 2) ∧
    ((envUniques dfTwoEnvs).length ≤ 2 → plotHeight dfTwoEnvs = 5) ∧
    (2 < (envUniques dfTwoEnvs).length → plotHeight dfTwoEnvs = 3) :=
  plot_facet_layout dfTwoEnvs none none (Seed.str "average") 100 none false
    (Or.inl rfl)

/-! ## The driver -/

/-- C7: when a save path is supplied and plotting is not suppressed, the
driver's first plotting-stage effect creates the save path's parent
directories, and the later save effect writes the image to exactly that
path. -/
theorem main_save_path (pred : String → List String → List Value → Bool)
    (args : Args) (fs : FS) (p : String) (df : DataFrame)
    (hpath : (args.create_csv = false ∧ fs.combined = some df) ∨
      (args.create_csv = true ∧
        collate_results fs.runs args.bin_size = .ok df))
    (hno : args.no_plot = false) (hsp : args.save_path = some p)
    (hseed : args.seed = "average" ∨ args.seed = "all") :
    ∃ pre mid, (mainRun pred args fs).1 =
        pre ++ MainEffect.makedirs (splitParent p) :: mid ∧
      MainEffect.plotEff (PlotEffect.save p) ∈ mid ∧
      (mainRun pred args fs).2.2 = .ok () := by
  have hps : ∀ fs0 : FS, fs0.combined = some df →
      ∃ agg, plotStage pred args fs0 =
      (MainEffect.makedirs (splitParent p) ::
        MainEffect.readCsv (joinPath args.results_dir "combined.csv") ::
        (PlotEffect.render (envUniques (match args.query with
            | some q => runQuery pred q df | none => df))
          (plotHeight (match args.query with
            | some q => runQuery pred q df | none => df))
          (plotColWrap (match args.query with
            | some q => runQuery pred q df | none => df))
          args.hue args.style agg :: renderTrail (some p) (!args.no_show)).map
            MainEffect.plotEff, .ok ()) := by
    intro fs0 h0
    rcases hseed with hseed | hseed
    · refine ⟨true, ?_⟩
      rw [plotStage, hno, h0, hsp, hseed]
      simp [plot]
    · refine ⟨false, ?_⟩
      rw [plotStage, hno, h0, hsp, hseed]
      simp [plot]
  rcases hpath with ⟨hcsv, hcomb⟩ | ⟨hcsv, hok⟩
  · obtain ⟨agg, hps1⟩ := hps fs hcomb
    simp only [mainRun, hcsv, Bool.false_eq_true, if_false, hps1]
    exact ⟨[], _, rfl, by simp [renderTrail], trivial⟩
  · obtain ⟨agg, hps1⟩ := hps ⟨fs.runs, some df⟩ rfl
    simp only [mainRun, hcsv, if_true, hok, hps1]
    exact ⟨[MainEffect.writeCsv (joinPath args.results_dir "combined.csv") df],
      _, rfl, by simp [renderTrail], trivial⟩

/-- Arguments of a plotting invocation with a save path. -/
def argsSave : Args :=
  ⟨"results", false, 100, none, none, none, "average", false, false,
    some "plots/out.png"⟩

/-- A results directory with a previously written `combined.csv`. -/
def fsCombined : FS := ⟨[], some dfB⟩

/-- C7 witness: a save-path invocation creates `plots` first and saves the
image to `plots/out.png`. -/
theorem main_save_path_witness :
    ∃ pre mid, (mainRun (fun _ _ _ => true) argsSave fsCombined).1 =
        pre ++ MainEffect.makedirs (splitParent "plots/out.png") :: mid ∧
      MainEffect.plotEff (PlotEffect.save "plots/out.png") ∈ mid ∧
      (mainRun (fun _ _ _ => true) argsSave fsCombined).2.2 = .ok () :=
  main_save_path (fun _ _ _ => true) argsSave fsCombined "plots/out.png" dfB
    (Or.inl ⟨rfl, rfl⟩) rfl rfl (Or.inl rfl)

/-- C8: with `--create-csv` set and a successful collation, the driver's
first effect overwrites `<results_dir>/combined.csv` with the collated
table (whatever the file held before), and when plotting is enabled the
plotting stage reads the table back from that same path. -/
theorem main_create_csv_roundtrip (pred : String → List String → List Value → Bool)
    (args : Args) (fs : FS) (df : DataFrame)
    (hcsv : args.create_csv = true)
    (hok : collate_results fs.runs args.bin_size = .ok df) :
    ∃ rest, (mainRun pred args fs).1 =
        MainEffect.writeCsv (joinPath args.results_dir "combined.csv") df :: rest ∧
      (mainRun pred args fs).2.1.combined = some df ∧
      (args.no_plot = false →
        MainEffect.readCsv (joinPath args.results_dir "combined.csv") ∈ rest) := by
  refine ⟨(plotStage pred args ⟨fs.runs, some df⟩).1, ?_, ?_, ?_⟩
  · rw [mainRun, hcsv]
    simp [hok]
  · rw [mainRun, hcsv]
    simp [hok]
  · intro hno
    rw [plotStage, hno]
    simp only [Bool.false_eq_true, if_false]
    exact List.mem_append_right _ (List.mem_cons_self _ _)

/-- Arguments of a `--create-csv` invocation with plotting enabled. -/
def argsRebuild : Args :=
  ⟨"results", true, 1, none, none, none, "average", false, false, none⟩

/-- A results directory holding run B and a stale `combined.csv`. -/
def fsRunB : FS := ⟨[runB], some ⟨["old"], [[Value.num 7]]⟩⟩

/-- C8 witness: rebuilding over run B writes the collated table to
`results/combined.csv`, replacing the stale table, and reads it back. -/
theorem main_create_csv_roundtrip_witness :
    collate_results fsRunB.runs argsRebuild.bin_size = .ok dfB ∧
    ∃ rest, (mainRun (fun _ _ _ => true) argsRebuild fsRunB).1 =
        MainEffect.writeCsv (joinPath "results" "combined.csv") dfB :: rest ∧
      (mainRun (fun _ _ _ => true) argsRebuild fsRunB).2.1.combined = some dfB ∧
      (argsRebuild.no_plot = false →
        MainEffect.readCsv (joinPath "results" "combined.csv") ∈ rest) := by
  have hok : collate_results fsRunB.runs argsRebuild.bin_size = .ok dfB := by
    simp +decide [collate_results, pdConcat, concatCols, concatRows, getCell,
      parse_filepath, fsRunB, argsRebuild, runB, csvB, paramsB, applyParams,
      setCol, binLoss, meanRows, sumRows, addRow, dfB, List.range_succ]
  exact ⟨hok,
    main_create_csv_roundtrip (fun _ _ _ => true) argsRebuild fsRunB dfB rfl hok⟩

/-- C10: the CLI passes `--seed` as the string `argparse` parsed it, so the
explicit-list mode is unreachable from the command line; any seed string
other than `average` or `all` (including a string spelling of a list) makes
the driver end in the unrecognized-choice error, with no rendering, save,
or display effect in the trace. -/
theorem cli_seed_string_unrecognized (pred : String → List String → List Value → Bool)
    (args : Args) (fs : FS) (df : DataFrame)
    (hpath : (args.create_csv = false ∧ fs.combined = some df) ∨
      (args.create_csv = true ∧
        collate_results fs.runs args.bin_size = .ok df))
    (hno : args.no_plot = false)
    (h1 : args.seed ≠ "average") (h2 : args.seed ≠ "all") :
    (mainRun pred args fs).2.2 =
      .error (args.seed ++ " not a recognized choice") ∧
    ∀ e : PlotEffect, MainEffect.plotEff e ∉ (mainRun pred args fs).1 := by
  have hplot : ∀ d2 : DataFrame,
      plot d2 args.hue args.style (Seed.str args.seed) args.bin_size
        args.save_path (!args.no_show) =
      ([], .error (args.seed ++ " not a recognized choice")) := by
    intro d2
    simp [plot, h1, h2]
  have hstage : ∀ fs0 : FS, fs0.combined = some df →
      plotStage pred args fs0 =
      ((match args.save_path with
        | some p => [MainEffect.makedirs (splitParent p)]
        | none => []) ++
        [MainEffect.readCsv (joinPath args.results_dir "combined.csv")],
        .error (args.seed ++ " not a recognized choice")) := by
    intro fs0 h0
    rw [plotStage, hno, h0]
    simp [hplot]
  rcases hpath with ⟨hcsv, hcomb⟩ | ⟨hcsv, hok⟩
  · constructor
    · simp only [mainRun, hcsv, Bool.false_eq_true, if_false, hstage fs hcomb]
    · intro e
      simp only [mainRun, hcsv, Bool.false_eq_true, if_false, hstage fs hcomb]
      cases args.save_path <;> simp
  · constructor
    · simp only [mainRun, hcsv, if_true, hok, hstage ⟨fs.runs, some df⟩ rfl]
    · intro e
      simp only [mainRun, hcsv, if_true, hok, hstage ⟨fs.runs, some df⟩ rfl]
      cases args.save_path <;> simp

/-- Arguments with the seed string `[0, 1]` — a string spelling of a list. -/
def argsBadSeed : Args :=
  ⟨"results", false, 100, none, none, none, "[0, 1]", false, false, none⟩

/-- C10 witness: the seed string `[0, 1]` reaches `plot` as a string and
ends the run in the unrecognized-choice error with no rendering effects. -/
theorem cli_seed_string_unrecognized_witness :
    (mainRun (fun _ _ _ => true) argsBadSeed fsCombined).2.2 =
      .error ("[0, 1]" ++ " not a recognized choice") ∧
    ∀ e : PlotEffect,
      MainEffect.plotEff e ∉ (mainRun (fun _ _ _ => true) argsBadSeed fsCombined).1 :=
  cli_seed_string_unrecognized (fun _ _ _ => true) argsBadSeed fsCombined dfB
    (Or.inl ⟨rfl, rfl⟩) rfl (by decide) (by decide)
